import Mathlib

/-!
Shallow embedding of the data-cleaning and survival-analysis pipeline of
`src/titanic_analysis.py` (class `TitanicAnalyzer`, methods `clean_data` and
`analyze_survival_patterns`), together with theorems settling the frozen
claims about it.

A dataframe is modelled as a `Table`: a list of `Row`s plus a flag recording
whether the (droppable) cabin column is present.  Nullable columns are
`Option`-valued.  Dataset-level statistics (group medians, the embarked mode,
title frequencies, fare-quantile edges) are computed from the row list exactly
as pandas computes them, with rationals standing for floats.  The two places
where the Python code can raise (mode of an all-missing embarked column, the
zero-length division in the cabin percentage, and `pd.qcut` with duplicate
bin edges) are modelled by `Except.error`.
-/

/-- One passenger row.  Raw rows carry `none` in the five derived fields;
`cleanData` (the embedding of `TitanicAnalyzer.clean_data`) fills them. -/
structure Row where
  passengerId : Nat
  survived : Nat
  pclass : Nat
  name : String
  sex : String
  age : Option ℚ
  sibSp : Nat
  parch : Nat
  fare : ℚ
  cabin : Option String
  embarked : Option String
  familySize : Option Nat
  isAlone : Option Nat
  title : Option String
  ageGroup : Option String
  fareGroup : Option String
deriving DecidableEq

/-- A dataframe: the rows plus whether the cabin column is (still) present. -/
structure Table where
  hasCabin : Bool
  rows : List Row
deriving DecidableEq

/-- The action log reported by the cleaning pass (counts printed by
`clean_data`). -/
structure Log where
  duplicatesRemoved : Nat
  ageFilled : Nat
  embarkedFilled : Nat
  cabinDropped : Bool
deriving DecidableEq

/-- `df.drop_duplicates()`: keep the first occurrence of each row. -/
def dedupAux (seen : List Row) : List Row → List Row
  | [] => []
  | r :: rs => if r ∈ seen then dedupAux seen rs else r :: dedupAux (r :: seen) rs

/-- `df.drop_duplicates()` on the whole row list. -/
def dedup (l : List Row) : List Row := dedupAux [] l

/-- Insert into a sorted list of rationals (ascending). -/
def insertSorted (x : ℚ) : List ℚ → List ℚ
  | [] => [x]
  | y :: ys => if x ≤ y then x :: y :: ys else y :: insertSorted x ys

/-- Sort a list of rationals ascending (insertion sort). -/
def sortQ (l : List ℚ) : List ℚ := l.foldr insertSorted []

/-- The pandas `median` of a list of (non-missing) values: sort, take the
middle element, or the mean of the two middle elements; `none` on the empty
list (pandas yields NaN there). -/
def medianQ (l : List ℚ) : Option ℚ :=
  if (sortQ l).length = 0 then none
  else if (sortQ l).length % 2 = 1 then some ((sortQ l).getD ((sortQ l).length / 2) 0)
  else some
    (((sortQ l).getD ((sortQ l).length / 2 - 1) 0 + (sortQ l).getD ((sortQ l).length / 2) 0) / 2)

/-- The non-missing ages of the (class, sex) group of a row list, as used by
`groupby(["Pclass", "Sex"])["Age"].transform("median")`. -/
def groupKnownAges (rows : List Row) (c : Nat) (s : String) : List ℚ :=
  (rows.filter (fun r => r.pclass = c ∧ r.sex = s)).filterMap Row.age

/-- Row-wise age imputation: `df["Age"].fillna(df.groupby(["Pclass", "Sex"])
["Age"].transform("median"))`.  A present age is kept; a missing age becomes
the group median, which is itself `none` when the group has no known age. -/
def fillAgeRow (rows : List Row) (r : Row) : Row :=
  match r.age with
  | some _ => r
  | none => { r with age := medianQ (groupKnownAges rows r.pclass r.sex) }

/-- The age-imputation pass over the whole table. -/
def fillAge (rows : List Row) : List Row := rows.map (fillAgeRow rows)

/-- `df["Embarked"].mode()[0]`: the most frequent non-missing embarked value,
ties broken by the smallest string (pandas sorts the modes); `none` when no
value is present (where pandas raises on the `[0]` indexing). -/
def modeEmbarked (rows : List Row) : Option String :=
  let vals := rows.filterMap Row.embarked
  vals.foldl
    (fun best v =>
      match best with
      | none => some v
      | some b =>
        if vals.count v > vals.count b then some v
        else if vals.count v = vals.count b ∧ v < b then some v
        else some b)
    none

/-- Fill one row's embarked value with the dataset mode if missing. -/
def fillEmbRow (m : String) (r : Row) : Row :=
  match r.embarked with
  | some _ => r
  | none => { r with embarked := some m }

/-- The embarked-imputation step: skipped entirely when nothing is missing,
otherwise every missing value becomes the mode; errors when the mode of an
all-missing column is demanded.  Also returns the number of values filled. -/
def fillEmbarked (rows : List Row) : Except String (List Row × Nat) :=
  if rows.countP (fun r => r.embarked.isNone) = 0 then Except.ok (rows, 0)
  else
    match modeEmbarked rows with
    | none => Except.error ("mode of empty column")
    | some m =>
      Except.ok (rows.map (fillEmbRow m), rows.countP (fun r => r.embarked.isNone))

/-- Clear a row's cabin value (it belongs to a dropped column). -/
def dropCabinRow (r : Row) : Row := { r with cabin := none }

/-- The cabin step: when the cabin column exists, drop it if strictly more
than 70 percent of its values are missing (the dropped column's values are
cleared); retained otherwise.  The zero-row percentage is a Python division
by zero, modelled as an error.  Returns (column still present, rows,
dropped?). -/
def cabinStep (hasCab : Bool) (rows : List Row) : Except String (Bool × List Row × Bool) :=
  if hasCab then
    if rows.length = 0 then Except.error ("division by zero")
    else
      if ((rows.countP (fun r => r.cabin.isNone) : ℚ) / (rows.length : ℚ)) * 100 > 70 then
        Except.ok (false, rows.map dropCabinRow, true)
      else Except.ok (true, rows, false)
  else Except.ok (false, rows, false)

/-- `FamilySize = SibSp + Parch + 1` and `IsAlone = int(FamilySize == 1)`. -/
def setFamily (r : Row) : Row :=
  { r with familySize := some (r.sibSp + r.parch + 1),
           isAlone := some (if r.sibSp + r.parch + 1 = 1 then 1 else 0) }

/-- The family-feature pass. -/
def addFamily (rows : List Row) : List Row := rows.map setFamily

/-- ASCII letter test, the `[A-Za-z]` character class. -/
def isLetterChar (c : Char) : Bool :=
  (('A' ≤ c) && (c ≤ 'Z')) || (('a' ≤ c) && (c ≤ 'z'))

/-- Try to match the regex `" ([A-Za-z]+)\. "` at the head of the character
list: a space, then one or more letters (captured), then a period, then a
space. -/
def matchTitleAt : List Char → Option (List Char)
  | [] => none
  | c :: rest =>
    if c = ' ' then
      let ls := rest.takeWhile isLetterChar
      if ls.isEmpty then none
      else
        match rest.dropWhile isLetterChar with
        | '.' :: d :: _ => if d = ' ' then some ls else none
        | _ => none
    else none

/-- Leftmost match of the title regex anywhere in the character list. -/
def findTitleAux : List Char → Option (List Char)
  | [] => none
  | c :: rest =>
    match matchTitleAt (c :: rest) with
    | some ls => some ls
    | none => findTitleAux rest

/-- `df["Name"].str.extract(" ([A-Za-z]+)\. ", expand=False)` on one name. -/
def extractTitle (s : String) : Option String :=
  (findTitleAux s.toList).map (fun ls => String.mk ls)

/-- Spec-side reading of the title pattern, used only to compare the claim's
wording against the code: a word followed by a period, preceded by a space —
with no requirement of a space after the period. -/
def specMatchTitleAt : List Char → Option (List Char)
  | [] => none
  | c :: rest =>
    if c = ' ' then
      let ls := rest.takeWhile isLetterChar
      if ls.isEmpty then none
      else
        match rest.dropWhile isLetterChar with
        | '.' :: _ => some ls
        | _ => none
    else none

/-- Leftmost match of the spec-side title pattern. -/
def specFindTitleAux : List Char → Option (List Char)
  | [] => none
  | c :: rest =>
    match specMatchTitleAt (c :: rest) with
    | some ls => some ls
    | none => specFindTitleAux rest

/-- Extraction under the spec's description of the pattern. -/
def specExtractTitle (s : String) : Option String :=
  (specFindTitleAux s.toList).map (fun ls => String.mk ls)

/-- The final title of a row given all names of the table: the extracted
token, with tokens occurring fewer than 10 times across the dataset replaced
by the single category Rare (`value_counts` then `replace`); a name with no
match keeps a missing title. -/
def titleOf (names : List String) (nm : String) : Option String :=
  match extractTitle nm with
  | none => none
  | some x =>
    if (names.filterMap extractTitle).count x < 10 then some ("Rare") else some x

/-- Set one row's title from the table's name column. -/
def setTitle (names : List String) (r : Row) : Row :=
  { r with title := titleOf names r.name }

/-- The title-extraction pass. -/
def addTitle (rows : List Row) : List Row :=
  rows.map (setTitle (rows.map Row.name))

/-- `pd.cut(age, bins=[0, 12, 18, 35, 60, 100], labels=[...])`: right-closed,
left-open intervals; values at or below 0, above 100, or missing get no
label. -/
def ageBucket : Option ℚ → Option String
  | none => none
  | some a =>
    if a ≤ 0 then none
    else if a ≤ 12 then some ("Child")
    else if a ≤ 18 then some ("Teen")
    else if a ≤ 35 then some ("Adult")
    else if a ≤ 60 then some ("Middle-aged")
    else if a ≤ 100 then some ("Senior")
    else none

/-- Set one row's age group from its (already imputed) age. -/
def setAgeGroup (r : Row) : Row := { r with ageGroup := ageBucket r.age }

/-- The age-group pass. -/
def addAgeGroup (rows : List Row) : List Row := rows.map setAgeGroup

/-- The five quartile edges used by `pd.qcut(fare, q=4)`. -/
structure Edges where
  q0 : ℚ
  q1 : ℚ
  q2 : ℚ
  q3 : ℚ
  q4 : ℚ
deriving DecidableEq

/-- Linear-interpolation quantile of a sorted list, numpy/pandas style:
position `p * (n - 1)`, interpolating between the two neighbouring order
statistics. -/
def quantileAt (s : List ℚ) (p : ℚ) : ℚ :=
  match s with
  | [] => 0
  | _ :: _ =>
    let pos := p * ((s.length : ℚ) - 1)
    let i := (Rat.floor pos).toNat
    let vi := s.getD i 0
    let vj := s.getD (i + 1) vi
    vi + (vj - vi) * (pos - (i : ℚ))

/-- The quartile edges of a fare list (its own empirical distribution). -/
def fareEdges (fares : List ℚ) : Edges :=
  let s := sortQ fares
  { q0 := quantileAt s 0, q1 := quantileAt s (1 / 4), q2 := quantileAt s (1 / 2),
    q3 := quantileAt s (3 / 4), q4 := quantileAt s 1 }

/-- `pd.qcut` demands pairwise-distinct bin edges; quantile edges are
monotone, so distinctness is strict increase. -/
def edgesOk (e : Edges) : Bool :=
  (e.q0 < e.q1) && (e.q1 < e.q2) && (e.q2 < e.q3) && (e.q3 < e.q4)

/-- The quartile label of a fare: right-closed bins with the lowest edge
included in the first bin, labels in ascending fare order. -/
def qcutLabel4 (e : Edges) (x : ℚ) : Option String :=
  if x < e.q0 then none
  else if x ≤ e.q1 then some ("Low")
  else if x ≤ e.q2 then some ("Medium")
  else if x ≤ e.q3 then some ("High")
  else if x ≤ e.q4 then some ("Very High")
  else none

/-- Set one row's fare group from the dataset's quartile edges. -/
def setFareGroup (e : Edges) (r : Row) : Row :=
  { r with fareGroup := qcutLabel4 e r.fare }

/-- The fare-group pass: `pd.qcut(fare, q=4, labels=[...])`, raising (error)
when the computed bin edges are not pairwise distinct. -/
def addFareGroup (rows : List Row) : Except String (List Row) :=
  if edgesOk (fareEdges (rows.map Row.fare)) then
    Except.ok (rows.map (setFareGroup (fareEdges (rows.map Row.fare))))
  else Except.error ("Bin edges must be unique")

/-- The whole of `TitanicAnalyzer.clean_data`: deduplicate, impute age by
(class, sex) group median, impute embarked by mode, drop the cabin column
above 70 percent missing, then derive family size, is-alone, title, age
group and fare group.  Categorical coercion changes no values and is not
represented.  Returns the cleaned table and the action log. -/
def cleanData (t : Table) : Except String (Table × Log) :=
  match fillEmbarked (fillAge (dedup t.rows)) with
  | Except.error e => Except.error e
  | Except.ok (rows3, embFilled) =>
    match cabinStep t.hasCabin rows3 with
    | Except.error e => Except.error e
    | Except.ok (hc2, rows4, dropped) =>
      match addFareGroup (addAgeGroup (addTitle (addFamily rows4))) with
      | Except.error e => Except.error e
      | Except.ok rows8 =>
        Except.ok ({ hasCabin := hc2, rows := rows8 },
          { duplicatesRemoved := t.rows.length - (dedup t.rows).length,
            ageFilled := (dedup t.rows).countP (fun r => r.age.isNone),
            embarkedFilled := embFilled,
            cabinDropped := dropped })

/-- The cleaned table of a raw table (junk default on error). -/
def cleanedOf (t : Table) : Table :=
  match cleanData t with
  | Except.ok p => p.1
  | Except.error _ => { hasCabin := false, rows := [] }

/-- The cleaning log of a raw table (junk default on error). -/
def logOf (t : Table) : Log :=
  match cleanData t with
  | Except.ok p => p.2
  | Except.error _ => { duplicatesRemoved := 0, ageFilled := 0, embarkedFilled := 0, cabinDropped := false }

/-- Whether cleaning succeeded. -/
def cleanOk (t : Table) : Bool := (cleanData t).isOk

/-- One group line of `analyze_survival_patterns`:
`groupby(feature)["Survived"].agg(["count", "sum", "mean"])` with the mean
scaled to a percentage; a category with no records has an undefined (`none`,
pandas NaN) rate. -/
def survivalAgg (rows : List Row) (f : Row → Option String) (c : String) :
    Nat × Nat × Option ℚ :=
  ((rows.filter (fun r => f r == some c)).length,
   ((rows.filter (fun r => f r == some c)).map Row.survived).sum,
   if (rows.filter (fun r => f r == some c)).length = 0 then none
   else some
     (((((rows.filter (fun r => f r == some c)).map Row.survived).sum : ℚ) /
       (((rows.filter (fun r => f r == some c)).length : ℚ))) * 100))

/-- Grouping key for the sex column. -/
def sexKey (r : Row) : Option String := some r.sex

/-- Round to one decimal place, as the printed report does. -/
def round1 (x : ℚ) : ℚ := ((Rat.floor (x * 10 + 1 / 2) : ℚ)) / 10

/-- No missing value in any retained column of a row (the check of
`df.isnull().sum().sum()` restricted to one row). -/
def rowComplete (hasCab : Bool) (r : Row) : Bool :=
  r.age.isSome && r.embarked.isSome && (!hasCab || r.cabin.isSome) &&
  r.familySize.isSome && r.isAlone.isSome && r.title.isSome &&
  r.ageGroup.isSome && r.fareGroup.isSome

/-- No missing value anywhere in the table. -/
def noMissingTable (t : Table) : Bool := t.rows.all (rowComplete t.hasCabin)

/-- The cabin column's missing percentage over a row list. -/
def cabinMissingPct (rows : List Row) : ℚ :=
  ((rows.countP (fun r => r.cabin.isNone) : ℚ) / (rows.length : ℚ)) * 100

/-- The age partition as the amended claim states it: left-open, right-closed
buckets Child (0,12], Teen (12,18], Adult (18,35], Middle-aged (35,60],
Senior (60,100]; anything outside, and a missing age, gets no label. -/
def ageBucketSpec (a? : Option ℚ) : Option String :=
  match a? with
  | none => none
  | some a =>
    if 0 < a ∧ a ≤ 12 then some ("Child")
    else if 12 < a ∧ a ≤ 18 then some ("Teen")
    else if 18 < a ∧ a ≤ 35 then some ("Adult")
    else if 35 < a ∧ a ≤ 60 then some ("Middle-aged")
    else if 60 < a ∧ a ≤ 100 then some ("Senior")
    else none

/-- The age an arbitrary row ends up with after the age-imputation pass: its
own age when present, otherwise its (class, sex) group's median age. -/
def imputedAge (rows : List Row) (r : Row) : Option ℚ :=
  match r.age with
  | some a => some a
  | none => medianQ (groupKnownAges rows r.pclass r.sex)

/-- A placeholder row for total accessors. -/
def defaultRow : Row :=
  { passengerId := 0, survived := 0, pclass := 0, name := "", sex := "",
    age := none, sibSp := 0, parch := 0, fare := 0, cabin := none,
    embarked := none, familySize := none, isAlone := none, title := none,
    ageGroup := none, fareGroup := none }

/-- Build a raw row (derived fields empty). -/
def mkRaw (pid surv cls : Nat) (nm sx : String) (ag : Option ℚ) (sib pr : Nat)
    (fr : ℚ) (cab emb : Option String) : Row :=
  { passengerId := pid, survived := surv, pclass := cls, name := nm, sex := sx,
    age := ag, sibSp := sib, parch := pr, fare := fr, cabin := cab,
    embarked := emb, familySize := none, isAlone := none, title := none,
    ageGroup := none, fareGroup := none }

/-- Test rows: two (class, sex) groups, each with one known and one missing
age; fares 10, 20, 30, 40. -/
def tbr1 : Row := mkRaw 1 1 1 ("A, Mr. Alpha") ("male") none 0 0 10 none (some ("S"))

def tbr2 : Row := mkRaw 2 0 1 ("B, Mr. Beta") ("male") (some 30) 0 0 20 none (some ("S"))

def tbr3 : Row := mkRaw 3 1 2 ("C, Mrs. Gamma") ("female") none 1 0 30 none (some ("S"))

def tbr4 : Row := mkRaw 4 0 2 ("D, Mrs. Delta") ("female") (some 25) 1 0 40 none (some ("S"))

/-- Basic test table for the imputation and quartile examples. -/
def TB : Table := { hasCabin := true, rows := [tbr1, tbr2, tbr3, tbr4] }

/-- A table whose (1, male) group consists of a single record with missing
age: no known age exists in that group. -/
def tc1r1 : Row := mkRaw 1 0 1 ("A, Mr. One") ("male") none 0 0 10 none (some ("S"))

def tc1r2 : Row := mkRaw 2 1 2 ("B, Mrs. Two") ("female") (some 30) 0 0 20 none (some ("S"))

def tc1r3 : Row := mkRaw 3 1 2 ("C, Mrs. Three") ("female") (some 40) 1 0 30 none (some ("S"))

def tc1r4 : Row := mkRaw 4 0 2 ("D, Mr. Four") ("male") (some 20) 0 1 40 none (some ("S"))

/-- Table with an all-missing age group. -/
def TC1 : Table := { hasCabin := true, rows := [tc1r1, tc1r2, tc1r3, tc1r4] }

/-- Table whose first record has age exactly 0. -/
def TC4 : Table :=
  { hasCabin := true,
    rows := [mkRaw 1 1 1 ("A, Mr. One") ("male") (some 0) 0 0 10 none (some ("S")),
      mkRaw 2 1 2 ("B, Mrs. Two") ("female") (some 20) 0 0 20 none (some ("S")),
      mkRaw 3 1 2 ("C, Mrs. Three") ("female") (some 30) 1 0 30 none (some ("S")),
      mkRaw 4 0 2 ("D, Mr. Four") ("male") (some 40) 0 1 40 none (some ("S"))] }

/-- Table whose first record's name has a salutation followed by a period but
no space after the period. -/
def TC5a : Table :=
  { hasCabin := true,
    rows := [mkRaw 1 1 1 ("Smith, Mr.Owen") ("male") (some 30) 0 0 10 none (some ("S")),
      mkRaw 2 1 2 ("B, Mrs. Two") ("female") (some 20) 0 0 20 none (some ("S")),
      mkRaw 3 1 2 ("C, Mrs. Three") ("female") (some 30) 1 0 30 none (some ("S")),
      mkRaw 4 0 2 ("D, Mr. Four") ("male") (some 40) 0 1 40 none (some ("S"))] }

/-- Row generator for the title-frequency table: ten records titled Mr and
two titled Mrs. -/
def tc5Row (i : Nat) : Row :=
  mkRaw i 0 3 (if i < 10 then ("A, Mr. X") else ("B, Mrs. Y"))
    (if i < 10 then ("male") else ("female")) (some 30) 0 0 ((10 : ℚ) + i) none (some ("S"))

/-- Table with a title of frequency ten (kept) and one of frequency two
(collapsed to Rare). -/
def TC5b : Table := { hasCabin := true, rows := (List.range 12).map tc5Row }

/-- Row generator for the cabin-threshold tables: cabin missing below the
threshold index. -/
def c6Row (th : Nat) (i : Nat) : Row :=
  mkRaw i 0 3 ("A") ("male") (some 30) 0 0 (i : ℚ)
    (if i < th then none else some ("C")) (some ("S"))

/-- 100 records, 71 of them with missing cabin. -/
def T71 : Table := { hasCabin := true, rows := (List.range 100).map (c6Row 71) }

/-- 100 records, 69 of them with missing cabin. -/
def T69 : Table := { hasCabin := true, rows := (List.range 100).map (c6Row 69) }

/-- Two raw rows identical except that one has a missing age (imputed to the
other's age), plus four singleton-group rows; after cleaning the first two
rows coincide. -/
def tc9r1 : Row := mkRaw 1 0 3 ("A, Mr. A") ("male") none 0 0 10 none (some ("S"))

def tc9r2 : Row := mkRaw 1 0 3 ("A, Mr. A") ("male") (some 30) 0 0 10 none (some ("S"))

def tc9r3 : Row := mkRaw 2 1 1 ("B, Mr. B") ("male") (some 20) 0 0 30 none (some ("S"))

def tc9r4 : Row := mkRaw 3 1 1 ("C, Mrs. C") ("female") (some 25) 0 0 40 none (some ("S"))

def tc9r5 : Row := mkRaw 4 0 2 ("D, Mr. D") ("male") (some 40) 0 0 50 none (some ("S"))

def tc9r6 : Row := mkRaw 5 1 2 ("E, Mrs. E") ("female") (some 50) 0 0 60 none (some ("S"))

/-- Table on which a second cleaning pass removes a duplicate produced by the
first pass's imputation. -/
def TC9 : Table := { hasCabin := true, rows := [tc9r1, tc9r2, tc9r3, tc9r4, tc9r5, tc9r6] }

/-- Fully populated table (cabin present everywhere, pairwise-distinct rows)
for the idempotence witness. -/
def TC9w : Table :=
  { hasCabin := true,
    rows := [mkRaw 1 1 1 ("A, Mr. A") ("male") (some 30) 0 0 10 (some ("C1")) (some ("S")),
      mkRaw 2 0 1 ("B, Mr. B") ("male") (some 40) 1 0 20 (some ("C2")) (some ("S")),
      mkRaw 3 1 2 ("C, Mrs. C") ("female") (some 25) 0 1 30 (some ("C3")) (some ("S")),
      mkRaw 4 0 2 ("D, Mrs. D") ("female") (some 20) 1 1 40 (some ("C4")) (some ("S"))] }

/-- Aggregation-example row: class 3, fixed name and fare, chosen sex and
survival flag. -/
def c2Row (pid surv : Nat) (sx : String) : Row :=
  mkRaw pid surv 3 ("X, Mr. X") sx (some 30) 0 0 10 none (some ("S"))

/-- Six records: three female (two survivors), three male (one survivor). -/
def rowsC2 : List Row :=
  [c2Row 1 1 ("female"), c2Row 2 1 ("female"), c2Row 3 0 ("female"),
   c2Row 4 1 ("male"), c2Row 5 0 ("male"), c2Row 6 0 ("male")]

/-! ### Generic list helpers -/

theorem map_eq_self_of {α : Type} {f : α → α} {l : List α}
    (h : ∀ a ∈ l, f a = a) : l.map f = l := by
  induction l with
  | nil => rfl
  | cons x xs ih =>
    simp only [List.map_cons, List.cons.injEq]
    exact ⟨h x (List.mem_cons_self x xs), ih (fun a ha => h a (List.mem_cons_of_mem x ha))⟩

theorem map_proj_of_preserve {α : Type} {f : Row → Row} {g : Row → α}
    (hf : ∀ r, g (f r) = g r) (l : List Row) :
    (l.map f).map g = l.map g := by
  rw [List.map_map]
  exact List.map_congr_left (fun a _ => hf a)

theorem dedupAux_eq_self {l : List Row} (seen : List Row)
    (hs : ∀ a ∈ l, a ∉ seen) (h : l.Nodup) : dedupAux seen l = l := by
  induction l generalizing seen with
  | nil => rfl
  | cons x xs ih =>
    unfold dedupAux
    rw [if_neg (hs x (List.mem_cons_self x xs))]
    rw [ih (x :: seen) ?_ (List.Nodup.of_cons h)]
    intro a ha
    rw [List.mem_cons]
    rintro (rfl | hmem)
    · exact (List.nodup_cons.mp h).1 ha
    · exact hs a (List.mem_cons_of_mem x ha) hmem

theorem dedup_eq_self {l : List Row} (h : l.Nodup) : dedup l = l :=
  dedupAux_eq_self [] (fun a _ hf => (List.not_mem_nil a) hf) h

/-! ### Row-level normal forms of the per-row passes -/

theorem fillAgeRow_eq (rows : List Row) (r : Row) :
    fillAgeRow rows r = { r with age := imputedAge rows r } := by
  unfold fillAgeRow imputedAge
  cases h : r.age with
  | some a => rw [show ({ r with age := some a } : Row) = r by rw [← h]]
  | none => rfl

theorem fillEmbRow_eq (m : String) (r : Row) :
    fillEmbRow m r = { r with embarked := some (r.embarked.getD m) } := by
  unfold fillEmbRow
  cases h : r.embarked with
  | some e =>
    rw [show (some e).getD m = e from rfl]
    rw [show ({ r with embarked := some e } : Row) = r by rw [← h]]
  | none => rfl

theorem fillAgeRow_of_isSome {rows : List Row} {r : Row}
    (h : r.age.isSome = true) : fillAgeRow rows r = r := by
  unfold fillAgeRow
  cases hr : r.age with
  | some a => rfl
  | none => rw [hr] at h; simp at h

theorem setFamily_eq_self {r : Row}
    (h1 : r.familySize = some (r.sibSp + r.parch + 1))
    (h2 : r.isAlone = some (if r.sibSp + r.parch + 1 = 1 then 1 else 0)) :
    setFamily r = r := by
  unfold setFamily
  rw [← h1, ← h2]

theorem setTitle_eq_self {names : List String} {r : Row}
    (h : r.title = titleOf names r.name) : setTitle names r = r := by
  unfold setTitle
  rw [← h]

theorem setAgeGroup_eq_self {r : Row}
    (h : r.ageGroup = ageBucket r.age) : setAgeGroup r = r := by
  unfold setAgeGroup
  rw [← h]

theorem setFareGroup_eq_self {e : Edges} {r : Row}
    (h : r.fareGroup = qcutLabel4 e r.fare) : setFareGroup e r = r := by
  unfold setFareGroup
  rw [← h]

/-! ### Stage inversion lemmas -/

theorem fillEmbarked_inv {rows rows' : List Row} {k : Nat}
    (h : fillEmbarked rows = Except.ok (rows', k)) :
    (rows' = rows ∧ k = 0 ∧ ∀ r ∈ rows, r.embarked.isSome = true) ∨
    (∃ m, modeEmbarked rows = some m ∧ rows' = rows.map (fillEmbRow m)) := by
  unfold fillEmbarked at h
  by_cases hz : rows.countP (fun r => r.embarked.isNone) = 0
  · rw [if_pos hz] at h
    cases h
    left
    refine ⟨rfl, rfl, ?_⟩
    intro r hr
    have hni := List.countP_eq_zero.mp hz r hr
    cases hre : r.embarked with
    | some e => rfl
    | none => rw [hre] at hni; simp at hni
  · rw [if_neg hz] at h
    cases hm : modeEmbarked rows with
    | none => rw [hm] at h; cases h
    | some m =>
      rw [hm] at h
      cases h
      right
      exact ⟨m, rfl, rfl⟩

theorem cabinStep_inv {hc : Bool} {rows rows4 : List Row} {hc2 dropped : Bool}
    (h : cabinStep hc rows = Except.ok (hc2, rows4, dropped)) :
    (hc = false → hc2 = false ∧ rows4 = rows ∧ dropped = false) ∧
    (hc = true → rows.length ≠ 0 ∧
      ((cabinMissingPct rows > 70 ∧ hc2 = false ∧ dropped = true ∧
          rows4 = rows.map dropCabinRow) ∨
       (¬cabinMissingPct rows > 70 ∧ hc2 = true ∧ dropped = false ∧ rows4 = rows))) := by
  unfold cabinStep at h
  constructor
  · intro hcf
    rw [hcf] at h
    simp only [Bool.false_eq_true, if_false] at h
    cases h
    exact ⟨rfl, rfl, rfl⟩
  · intro hct
    rw [hct] at h
    simp only [if_true] at h
    by_cases hlen : rows.length = 0
    · rw [if_pos hlen] at h; cases h
    · rw [if_neg hlen] at h
      refine ⟨hlen, ?_⟩
      by_cases hpct : ((rows.countP (fun r => r.cabin.isNone) : ℚ) / (rows.length : ℚ)) * 100 > 70
      · rw [if_pos hpct] at h
        cases h
        exact Or.inl ⟨hpct, rfl, rfl, rfl⟩
      · rw [if_neg hpct] at h
        cases h
        exact Or.inr ⟨hpct, rfl, rfl, rfl⟩

theorem addFareGroup_inv {rows rows' : List Row}
    (h : addFareGroup rows = Except.ok rows') :
    edgesOk (fareEdges (rows.map Row.fare)) = true ∧
    rows' = rows.map (setFareGroup (fareEdges (rows.map Row.fare))) := by
  unfold addFareGroup at h
  by_cases hok : edgesOk (fareEdges (rows.map Row.fare)) = true
  · rw [if_pos hok] at h
    cases h
    exact ⟨hok, rfl⟩
  · rw [if_neg hok] at h
    cases h

theorem cleanData_inv {t t' : Table} {lg : Log}
    (h : cleanData t = Except.ok (t', lg)) :
    ∃ rows3 embFilled hc2 rows4 dropped,
      fillEmbarked (fillAge (dedup t.rows)) = Except.ok (rows3, embFilled) ∧
      cabinStep t.hasCabin rows3 = Except.ok (hc2, rows4, dropped) ∧
      addFareGroup (addAgeGroup (addTitle (addFamily rows4))) = Except.ok t'.rows ∧
      t'.hasCabin = hc2 ∧
      lg = { duplicatesRemoved := t.rows.length - (dedup t.rows).length,
             ageFilled := (dedup t.rows).countP (fun r => r.age.isNone),
             embarkedFilled := embFilled,
             cabinDropped := dropped } := by
  cases hEmb : fillEmbarked (fillAge (dedup t.rows)) with
  | error e =>
    rw [show cleanData t = Except.error e by unfold cleanData; simp only [hEmb]] at h
    exact Except.noConfusion h
  | ok p =>
    obtain ⟨rows3, embFilled⟩ := p
    cases hCab : cabinStep t.hasCabin rows3 with
    | error e =>
      rw [show cleanData t = Except.error e by unfold cleanData; simp only [hEmb, hCab]] at h
      exact Except.noConfusion h
    | ok q =>
      obtain ⟨hc2, rows4, dropped⟩ := q
      cases hFare : addFareGroup (addAgeGroup (addTitle (addFamily rows4))) with
      | error e =>
        rw [show cleanData t = Except.error e by
          unfold cleanData; simp only [hEmb, hCab, hFare]] at h
        exact Except.noConfusion h
      | ok rows8 =>
        unfold cleanData at h
        simp only [hEmb, hCab, hFare, Except.ok.injEq, Prod.mk.injEq] at h
        obtain ⟨ht, hlg⟩ := h
        refine ⟨rows3, embFilled, hc2, rows4, dropped, ?_, hCab, ?_, ?_, hlg.symm⟩
        · rfl
        · rw [hFare, ← ht]
        · rw [← ht]

/-! ### Column preservation through the passes -/

theorem map_name_fillAge (rows : List Row) :
    (fillAge rows).map Row.name = rows.map Row.name :=
  map_proj_of_preserve (fun r => by rw [fillAgeRow_eq]) rows

theorem map_fare_fillAge (rows : List Row) :
    (fillAge rows).map Row.fare = rows.map Row.fare :=
  map_proj_of_preserve (fun r => by rw [fillAgeRow_eq]) rows

theorem cabinStep_cases {hc : Bool} {rows rows4 : List Row} {hc2 dropped : Bool}
    (h : cabinStep hc rows = Except.ok (hc2, rows4, dropped)) :
    rows4 = rows ∨ (rows4 = rows.map dropCabinRow ∧ hc2 = false) := by
  cases hhc : hc with
  | false => exact Or.inl ((cabinStep_inv h).1 hhc).2.1
  | true =>
    rcases ((cabinStep_inv h).2 hhc).2 with ⟨-, hc2f, -, hre4⟩ | ⟨-, -, -, hre4⟩
    · exact Or.inr ⟨hre4, hc2f⟩
    · exact Or.inl hre4

theorem fillEmbarked_map_name {rows rows' : List Row} {k : Nat}
    (h : fillEmbarked rows = Except.ok (rows', k)) :
    rows'.map Row.name = rows.map Row.name := by
  rcases fillEmbarked_inv h with ⟨hre, -, -⟩ | ⟨m, -, hre⟩
  · rw [hre]
  · rw [hre, map_proj_of_preserve (fun r => by rw [fillEmbRow_eq])]

theorem fillEmbarked_map_fare {rows rows' : List Row} {k : Nat}
    (h : fillEmbarked rows = Except.ok (rows', k)) :
    rows'.map Row.fare = rows.map Row.fare := by
  rcases fillEmbarked_inv h with ⟨hre, -, -⟩ | ⟨m, -, hre⟩
  · rw [hre]
  · rw [hre, map_proj_of_preserve (fun r => by rw [fillEmbRow_eq])]

theorem map_name_dropCabin (rows : List Row) :
    (rows.map dropCabinRow).map Row.name = rows.map Row.name :=
  map_proj_of_preserve (f := dropCabinRow) (g := Row.name) (fun _ => rfl) rows

theorem map_fare_dropCabin (rows : List Row) :
    (rows.map dropCabinRow).map Row.fare = rows.map Row.fare :=
  map_proj_of_preserve (f := dropCabinRow) (g := Row.fare) (fun _ => rfl) rows

theorem map_name_setFamily (rows : List Row) :
    (rows.map setFamily).map Row.name = rows.map Row.name :=
  map_proj_of_preserve (f := setFamily) (g := Row.name) (fun _ => rfl) rows

theorem map_fare_setFamily (rows : List Row) :
    (rows.map setFamily).map Row.fare = rows.map Row.fare :=
  map_proj_of_preserve (f := setFamily) (g := Row.fare) (fun _ => rfl) rows

theorem map_name_setTitle (ns : List String) (rows : List Row) :
    (rows.map (setTitle ns)).map Row.name = rows.map Row.name :=
  map_proj_of_preserve (f := setTitle ns) (g := Row.name) (fun _ => rfl) rows

theorem map_fare_setTitle (ns : List String) (rows : List Row) :
    (rows.map (setTitle ns)).map Row.fare = rows.map Row.fare :=
  map_proj_of_preserve (f := setTitle ns) (g := Row.fare) (fun _ => rfl) rows

theorem map_name_setAgeGroup (rows : List Row) :
    (rows.map setAgeGroup).map Row.name = rows.map Row.name :=
  map_proj_of_preserve (f := setAgeGroup) (g := Row.name) (fun _ => rfl) rows

theorem map_fare_setAgeGroup (rows : List Row) :
    (rows.map setAgeGroup).map Row.fare = rows.map Row.fare :=
  map_proj_of_preserve (f := setAgeGroup) (g := Row.fare) (fun _ => rfl) rows

theorem map_name_setFareGroup (e : Edges) (rows : List Row) :
    (rows.map (setFareGroup e)).map Row.name = rows.map Row.name :=
  map_proj_of_preserve (f := setFareGroup e) (g := Row.name) (fun _ => rfl) rows

theorem map_fare_setFareGroup (e : Edges) (rows : List Row) :
    (rows.map (setFareGroup e)).map Row.fare = rows.map Row.fare :=
  map_proj_of_preserve (f := setFareGroup e) (g := Row.fare) (fun _ => rfl) rows

theorem cabinStep_map_name {hc : Bool} {rows rows4 : List Row} {hc2 dropped : Bool}
    (h : cabinStep hc rows = Except.ok (hc2, rows4, dropped)) :
    rows4.map Row.name = rows.map Row.name := by
  rcases cabinStep_cases h with hre | ⟨hre, -⟩
  · rw [hre]
  · rw [hre, map_name_dropCabin]

theorem cabinStep_map_fare {hc : Bool} {rows rows4 : List Row} {hc2 dropped : Bool}
    (h : cabinStep hc rows = Except.ok (hc2, rows4, dropped)) :
    rows4.map Row.fare = rows.map Row.fare := by
  rcases cabinStep_cases h with hre | ⟨hre, -⟩
  · rw [hre]
  · rw [hre, map_fare_dropCabin]

theorem cleanData_cols {t t' : Table} {lg : Log}
    (h : cleanData t = Except.ok (t', lg)) :
    t'.rows.map Row.name = (dedup t.rows).map Row.name ∧
    t'.rows.map Row.fare = (dedup t.rows).map Row.fare ∧
    t'.rows.length = (dedup t.rows).length := by
  obtain ⟨rows3, embFilled, hc2, rows4, dropped, hEmb, hCab, hFare, hHC, hLg⟩ := cleanData_inv h
  obtain ⟨hedges, hrows'⟩ := addFareGroup_inv hFare
  have hname : t'.rows.map Row.name = (dedup t.rows).map Row.name := by
    rw [hrows', map_name_setFareGroup]
    unfold addAgeGroup addTitle addFamily
    rw [map_name_setAgeGroup, map_name_setTitle, map_name_setFamily,
      cabinStep_map_name hCab, fillEmbarked_map_name hEmb, map_name_fillAge]
  have hfare : t'.rows.map Row.fare = (dedup t.rows).map Row.fare := by
    rw [hrows', map_fare_setFareGroup]
    unfold addAgeGroup addTitle addFamily
    rw [map_fare_setAgeGroup, map_fare_setTitle, map_fare_setFamily,
      cabinStep_map_fare hCab, fillEmbarked_map_fare hEmb, map_fare_fillAge]
  refine ⟨hname, hfare, ?_⟩
  have := congrArg List.length hname
  simpa using this

/-! ### Positional tracking of a row through the pipeline -/

theorem tail_get (rows4 : List Row) (ns : List String) (e : Edges) (i : Nat)
    (r4 r : Row) (A : Option ℚ)
    (hns : (addFamily rows4).map Row.name = ns)
    (hr4 : rows4[i]? = some r4)
    (h1 : r4.passengerId = r.passengerId) (h2 : r4.survived = r.survived)
    (h3 : r4.pclass = r.pclass) (h4 : r4.name = r.name) (h5 : r4.sex = r.sex)
    (h6 : r4.sibSp = r.sibSp) (h7 : r4.parch = r.parch) (h8 : r4.fare = r.fare)
    (h9 : r4.age = A) (h10 : r4.embarked.isSome = true) :
    ∃ r', ((addAgeGroup (addTitle (addFamily rows4))).map (setFareGroup e))[i]? = some r' ∧
      r'.passengerId = r.passengerId ∧ r'.survived = r.survived ∧
      r'.pclass = r.pclass ∧ r'.name = r.name ∧ r'.sex = r.sex ∧
      r'.sibSp = r.sibSp ∧ r'.parch = r.parch ∧ r'.fare = r.fare ∧
      r'.age = A ∧ r'.embarked.isSome = true ∧ r'.cabin = r4.cabin ∧
      r'.familySize = some (r.sibSp + r.parch + 1) ∧
      r'.isAlone = some (if r.sibSp + r.parch + 1 = 1 then 1 else 0) ∧
      r'.title = titleOf ns r.name ∧
      r'.ageGroup = ageBucket A ∧
      r'.fareGroup = qcutLabel4 e r.fare := by
  refine ⟨setFareGroup e (setAgeGroup
      (setTitle ((rows4.map setFamily).map Row.name) (setFamily r4))), ?_, ?_⟩
  · unfold addAgeGroup addTitle addFamily
    rw [List.getElem?_map, List.getElem?_map, List.getElem?_map, List.getElem?_map, hr4]
    rfl
  · refine ⟨h1, h2, h3, h4, h5, h6, h7, h8, h9, h10, rfl, ?_, ?_, ?_, ?_, ?_⟩
    · exact (by rw [h6, h7] :
        some (r4.sibSp + r4.parch + 1) = some (r.sibSp + r.parch + 1))
    · exact (by rw [h6, h7] :
        some (if r4.sibSp + r4.parch + 1 = 1 then (1 : Nat) else 0) =
        some (if r.sibSp + r.parch + 1 = 1 then 1 else 0))
    · exact (by rw [show (rows4.map setFamily).map Row.name = ns from hns, h4] :
        titleOf ((rows4.map setFamily).map Row.name) r4.name = titleOf ns r.name)
    · exact congrArg ageBucket h9
    · exact congrArg (qcutLabel4 e) h8

theorem cleanData_get {t t' : Table} {lg : Log} (i : Nat) {r : Row}
    (h : cleanData t = Except.ok (t', lg))
    (hr : (dedup t.rows)[i]? = some r) :
    ∃ r', t'.rows[i]? = some r' ∧
      r'.passengerId = r.passengerId ∧ r'.survived = r.survived ∧
      r'.pclass = r.pclass ∧ r'.name = r.name ∧ r'.sex = r.sex ∧
      r'.sibSp = r.sibSp ∧ r'.parch = r.parch ∧ r'.fare = r.fare ∧
      r'.age = imputedAge (dedup t.rows) r ∧
      r'.embarked.isSome = true ∧
      (t'.hasCabin = true → r'.cabin = r.cabin) ∧
      r'.familySize = some (r.sibSp + r.parch + 1) ∧
      r'.isAlone = some (if r.sibSp + r.parch + 1 = 1 then 1 else 0) ∧
      r'.title = titleOf ((dedup t.rows).map Row.name) r.name ∧
      r'.ageGroup = ageBucket (imputedAge (dedup t.rows) r) ∧
      r'.fareGroup = qcutLabel4 (fareEdges ((dedup t.rows).map Row.fare)) r.fare := by
  obtain ⟨rows3, embFilled, hc2, rows4, dropped, hEmb, hCab, hFare, hHC, hLg⟩ := cleanData_inv h
  obtain ⟨hedges, hrows'⟩ := addFareGroup_inv hFare
  have hr2 : (fillAge (dedup t.rows))[i]? = some (fillAgeRow (dedup t.rows) r) := by
    unfold fillAge
    rw [List.getElem?_map, hr]
    rfl
  have e2 : fillAgeRow (dedup t.rows) r = { r with age := imputedAge (dedup t.rows) r } :=
    fillAgeRow_eq _ r
  have key : ∃ r4, rows4[i]? = some r4 ∧
      (r4.passengerId = r.passengerId ∧ r4.survived = r.survived ∧
       r4.pclass = r.pclass ∧ r4.name = r.name ∧ r4.sex = r.sex ∧
       r4.sibSp = r.sibSp ∧ r4.parch = r.parch ∧ r4.fare = r.fare ∧
       r4.age = imputedAge (dedup t.rows) r ∧ r4.embarked.isSome = true) ∧
      (t'.hasCabin = true → r4.cabin = r.cabin) := by
    rcases fillEmbarked_inv hEmb with ⟨hre, -, hall⟩ | ⟨m, -, hre⟩
    · -- embarked step skipped
      have hsome : (fillAgeRow (dedup t.rows) r).embarked.isSome = true :=
        hall _ (List.getElem?_mem hr2)
      rcases cabinStep_cases hCab with hre4 | ⟨hre4, hc2f⟩
      · refine ⟨fillAgeRow (dedup t.rows) r, ?_, ?_, ?_⟩
        · rw [hre4, hre]; exact hr2
        · rw [e2]; rw [e2] at hsome
          exact ⟨rfl, rfl, rfl, rfl, rfl, rfl, rfl, rfl, rfl, hsome⟩
        · intro hcontra
          rw [e2]
      · refine ⟨dropCabinRow (fillAgeRow (dedup t.rows) r), ?_, ?_, ?_⟩
        · rw [hre4, hre, List.getElem?_map, hr2]; rfl
        · unfold dropCabinRow
          rw [e2]; rw [e2] at hsome
          exact ⟨rfl, rfl, rfl, rfl, rfl, rfl, rfl, rfl, rfl, hsome⟩
        · intro hcontra
          rw [hHC, hc2f] at hcontra
          cases hcontra
    · -- embarked values filled with the mode
      rcases cabinStep_cases hCab with hre4 | ⟨hre4, hc2f⟩
      · refine ⟨fillEmbRow m (fillAgeRow (dedup t.rows) r), ?_, ?_, ?_⟩
        · rw [hre4, hre, List.getElem?_map, hr2]; rfl
        · rw [fillEmbRow_eq, e2]
          exact ⟨rfl, rfl, rfl, rfl, rfl, rfl, rfl, rfl, rfl, rfl⟩
        · intro hcontra
          rw [fillEmbRow_eq, e2]
      · refine ⟨dropCabinRow (fillEmbRow m (fillAgeRow (dedup t.rows) r)), ?_, ?_, ?_⟩
        · rw [hre4, hre, List.getElem?_map, List.getElem?_map, hr2]; rfl
        · unfold dropCabinRow
          rw [fillEmbRow_eq, e2]
          exact ⟨rfl, rfl, rfl, rfl, rfl, rfl, rfl, rfl, rfl, rfl⟩
        · intro hcontra
          rw [hHC, hc2f] at hcontra
          cases hcontra
  obtain ⟨r4, hr4, ⟨k1, k2, k3, k4, k5, k6, k7, k8, k9, k10⟩, kcab⟩ := key
  have hns : (addFamily rows4).map Row.name = (dedup t.rows).map Row.name := by
    unfold addFamily
    rw [map_name_setFamily, cabinStep_map_name hCab, fillEmbarked_map_name hEmb,
      map_name_fillAge]
  have hfares : (addAgeGroup (addTitle (addFamily rows4))).map Row.fare =
      (dedup t.rows).map Row.fare := by
    unfold addAgeGroup addTitle addFamily
    rw [map_fare_setAgeGroup, map_fare_setTitle, map_fare_setFamily,
      cabinStep_map_fare hCab, fillEmbarked_map_fare hEmb, map_fare_fillAge]
  obtain ⟨r', hr', c1, c2, c3, c4, c5, c6, c7, c8, c9, c10, c11, c12, c13, c14, c15, c16⟩ :=
    tail_get rows4 ((dedup t.rows).map Row.name)
      (fareEdges ((addAgeGroup (addTitle (addFamily rows4))).map Row.fare)) i r4 r
      (imputedAge (dedup t.rows) r) hns hr4 k1 k2 k3 k4 k5 k6 k7 k8 k9 k10
  refine ⟨r', ?_, c1, c2, c3, c4, c5, c6, c7, c8, c9, c10, ?_, c12, c13, c14, c15, ?_⟩
  · rw [hrows']
    exact hr'
  · intro hct
    rw [c11]
    exact kcab hct
  · rw [c16, hfares]

/-! ### Further facts used by the claim theorems -/

theorem insertSorted_length (x : ℚ) (l : List ℚ) :
    (insertSorted x l).length = l.length + 1 := by
  induction l with
  | nil => rfl
  | cons y ys ih =>
    unfold insertSorted
    by_cases hxy : x ≤ y
    · rw [if_pos hxy]; rfl
    · rw [if_neg hxy]
      simp only [List.length_cons, ih]

theorem sortQ_length (l : List ℚ) : (sortQ l).length = l.length := by
  induction l with
  | nil => rfl
  | cons y ys ih =>
    unfold sortQ at ih ⊢
    simp only [List.foldr_cons, insertSorted_length, ih, List.length_cons]

theorem medianQ_isSome {l : List ℚ} (h : l ≠ []) : (medianQ l).isSome = true := by
  unfold medianQ
  have hlen : (sortQ l).length ≠ 0 := by
    rw [sortQ_length]
    exact fun hz => h (List.eq_nil_of_length_eq_zero hz)
  rw [if_neg hlen]
  by_cases hpar : (sortQ l).length % 2 = 1
  · rw [if_pos hpar]; rfl
  · rw [if_neg hpar]; rfl

theorem ageBucket_eq_spec (a? : Option ℚ) : ageBucket a? = ageBucketSpec a? := by
  cases a? with
  | none => rfl
  | some a =>
    simp only [ageBucket, ageBucketSpec]
    rcases le_or_lt a 0 with h0 | h0
    · rw [if_pos h0,
        if_neg (show ¬(0 < a ∧ a ≤ 12) from fun hc => by linarith [hc.1]),
        if_neg (show ¬(12 < a ∧ a ≤ 18) from fun hc => by linarith [hc.1]),
        if_neg (show ¬(18 < a ∧ a ≤ 35) from fun hc => by linarith [hc.1]),
        if_neg (show ¬(35 < a ∧ a ≤ 60) from fun hc => by linarith [hc.1]),
        if_neg (show ¬(60 < a ∧ a ≤ 100) from fun hc => by linarith [hc.1])]
    · rw [if_neg (not_le.mpr h0)]
      rcases le_or_lt a 12 with h12 | h12
      · rw [if_pos h12, if_pos ⟨h0, h12⟩]
      · rw [if_neg (not_le.mpr h12),
          if_neg (show ¬(0 < a ∧ a ≤ 12) from fun hc => by linarith [hc.2])]
        rcases le_or_lt a 18 with h18 | h18
        · rw [if_pos h18, if_pos ⟨h12, h18⟩]
        · rw [if_neg (not_le.mpr h18),
            if_neg (show ¬(12 < a ∧ a ≤ 18) from fun hc => by linarith [hc.2])]
          rcases le_or_lt a 35 with h35 | h35
          · rw [if_pos h35, if_pos ⟨h18, h35⟩]
          · rw [if_neg (not_le.mpr h35),
              if_neg (show ¬(18 < a ∧ a ≤ 35) from fun hc => by linarith [hc.2])]
            rcases le_or_lt a 60 with h60 | h60
            · rw [if_pos h60, if_pos ⟨h35, h60⟩]
            · rw [if_neg (not_le.mpr h60),
                if_neg (show ¬(35 < a ∧ a ≤ 60) from fun hc => by linarith [hc.2])]
              rcases le_or_lt a 100 with h100 | h100
              · rw [if_pos h100, if_pos ⟨h60, h100⟩]
              · rw [if_neg (not_le.mpr h100),
                  if_neg (show ¬(60 < a ∧ a ≤ 100) from fun hc => by linarith [hc.2])]

theorem countP_cabin_map {f : Row → Row} (hf : ∀ r, (f r).cabin = r.cabin)
    (l : List Row) :
    (l.map f).countP (fun r => r.cabin.isNone) = l.countP (fun r => r.cabin.isNone) := by
  rw [List.countP_map]
  exact List.countP_congr (fun a _ => by
    show (a |> f).cabin.isNone = true ↔ a.cabin.isNone = true
    rw [hf a])

theorem cabinPct_rows3 {rows3 : List Row} {embFilled : Nat} (rows1 : List Row)
    (hEmb : fillEmbarked (fillAge rows1) = Except.ok (rows3, embFilled)) :
    cabinMissingPct rows3 = cabinMissingPct rows1 ∧ rows3.length = rows1.length := by
  have base : cabinMissingPct (fillAge rows1) = cabinMissingPct rows1 ∧
      (fillAge rows1).length = rows1.length := by
    constructor
    · unfold cabinMissingPct fillAge
      rw [countP_cabin_map (fun r => by rw [fillAgeRow_eq]) rows1, List.length_map]
    · unfold fillAge
      rw [List.length_map]
  rcases fillEmbarked_inv hEmb with ⟨hre, -, -⟩ | ⟨m, -, hre⟩
  · rw [hre]
    exact base
  · constructor
    · rw [hre]
      unfold cabinMissingPct
      rw [countP_cabin_map (fun r => by rw [fillEmbRow_eq]) (fillAge rows1), List.length_map]
      exact base.1
    · rw [hre, List.length_map]
      exact base.2

theorem cleanData_get' {t t' : Table} {lg : Log} (i : Nat) {r' : Row}
    (h : cleanData t = Except.ok (t', lg))
    (hr' : t'.rows[i]? = some r') :
    ∃ r, (dedup t.rows)[i]? = some r ∧
      r'.passengerId = r.passengerId ∧ r'.survived = r.survived ∧
      r'.pclass = r.pclass ∧ r'.name = r.name ∧ r'.sex = r.sex ∧
      r'.sibSp = r.sibSp ∧ r'.parch = r.parch ∧ r'.fare = r.fare ∧
      r'.age = imputedAge (dedup t.rows) r ∧
      r'.embarked.isSome = true ∧
      (t'.hasCabin = true → r'.cabin = r.cabin) ∧
      r'.familySize = some (r.sibSp + r.parch + 1) ∧
      r'.isAlone = some (if r.sibSp + r.parch + 1 = 1 then 1 else 0) ∧
      r'.title = titleOf ((dedup t.rows).map Row.name) r.name ∧
      r'.ageGroup = ageBucket (imputedAge (dedup t.rows) r) ∧
      r'.fareGroup = qcutLabel4 (fareEdges ((dedup t.rows).map Row.fare)) r.fare := by
  have hlt : i < t'.rows.length := by
    by_contra hge
    rw [List.getElem?_eq_none_iff.mpr (Nat.le_of_not_lt hge)] at hr'
    cases hr'
  have hlen := (cleanData_cols h).2.2
  have hlt2 : i < (dedup t.rows).length := by rw [← hlen]; exact hlt
  have hr : (dedup t.rows)[i]? = some ((dedup t.rows).get ⟨i, hlt2⟩) := by
    rw [List.getElem?_eq_getElem hlt2, List.get_eq_getElem]
  obtain ⟨r'', hr'', c⟩ := cleanData_get i h hr
  rw [hr'] at hr''
  have hrr : r' = r'' := Option.some.inj hr''
  exact ⟨(dedup t.rows).get ⟨i, hlt2⟩, hr, hrr ▸ c⟩

/-! ### The claims -/

theorem sum_survived_filter (p : Row → Bool) (rows : List Row)
    (h01 : ∀ r ∈ rows, r.survived = 0 ∨ r.survived = 1) :
    ((rows.filter p).map Row.survived).sum =
      rows.countP (fun r => p r && r.survived == 1) := by
  induction rows with
  | nil => rfl
  | cons x xs ih =>
    have hx := h01 x (List.mem_cons_self x xs)
    have ihx := ih (fun r hr => h01 r (List.mem_cons_of_mem x hr))
    rw [List.filter_cons, List.countP_cons]
    by_cases hp : p x = true
    · rw [if_pos hp]
      simp only [List.map_cons, List.sum_cons, ihx, hp, Bool.true_and]
      rcases hx with h0 | h1
      · rw [h0]
        simp
      · rw [h1]
        simp [Nat.add_comm]
    · rw [if_neg hp]
      simp only [ihx]
      have hfalse : (p x && x.survived == 1) = false := by
        rw [Bool.and_eq_false_iff]
        left
        exact Bool.not_eq_true _ ▸ hp
      rw [hfalse]
      simp

/-- C2: given a record set and a categorical key, the survival aggregator
returns, for a category, the count of matching records, the count of
survivors among them, and a survival rate equal to survivors/count × 100;
for a category with zero records the rate is the explicit undefined marker
`none` (pandas NaN), never 0 and never a crash. -/
theorem claim_C2_survival_aggregator (rows : List Row) (f : Row → Option String)
    (c : String) (h01 : ∀ r ∈ rows, r.survived = 0 ∨ r.survived = 1) :
    (survivalAgg rows f c).1 = rows.countP (fun r => f r == some c) ∧
    (survivalAgg rows f c).2.1 =
      rows.countP (fun r => f r == some c && r.survived == 1) ∧
    ((survivalAgg rows f c).1 ≠ 0 → (survivalAgg rows f c).2.2 =
      some ((((survivalAgg rows f c).2.1 : ℚ) / ((survivalAgg rows f c).1 : ℚ)) * 100)) ∧
    ((survivalAgg rows f c).1 = 0 → (survivalAgg rows f c).2.2 = none) := by
  refine ⟨(List.countP_eq_length_filter _ _).symm, sum_survived_filter _ rows h01, ?_, ?_⟩
  · intro hne
    have hne2 : ¬((rows.filter (fun r => f r == some c)).length = 0) := hne
    show (if (rows.filter (fun r => f r == some c)).length = 0 then none else _) = _
    rw [if_neg hne2]
    rfl
  · intro hz
    have hz2 : (rows.filter (fun r => f r == some c)).length = 0 := hz
    show (if (rows.filter (fun r => f r == some c)).length = 0 then none else _) = _
    rw [if_pos hz2]

set_option maxRecDepth 100000

/-- Witness for C2: with three female records of which two survived and
three male of which one survived, the rates are 200/3 percent (printed 66.7)
and 100/3 percent (printed 33.3); a category with no records gets `none`. -/
theorem claim_C2_witness :
    (survivalAgg rowsC2 sexKey ("female")) = (3, 2, some ((2 : ℚ) / 3 * 100)) ∧
    (survivalAgg rowsC2 sexKey ("male")) = (3, 1, some ((1 : ℚ) / 3 * 100)) ∧
    (survivalAgg rowsC2 sexKey ("unused")).2.2 = none ∧
    round1 ((2 : ℚ) / 3 * 100) = 667 / 10 ∧
    round1 ((1 : ℚ) / 3 * 100) = 333 / 10 := by
  refine ⟨by with_unfolding_all decide, by with_unfolding_all decide, ?_,
    by with_unfolding_all decide, by with_unfolding_all decide⟩
  exact (claim_C2_survival_aggregator rowsC2 sexKey ("unused")
    (by with_unfolding_all decide)).2.2.2 (by with_unfolding_all decide)

/-- C3: a record whose age is missing is assigned exactly the median of the
non-missing ages of its (class, sex) group by the cleaning pass. -/
theorem claim_C3_age_imputation {t t' : Table} {lg : Log} (i : Nat) {r : Row}
    {m : ℚ} (hok : cleanData t = Except.ok (t', lg))
    (hr : (dedup t.rows)[i]? = some r)
    (hmiss : r.age = none)
    (hmed : medianQ (groupKnownAges (dedup t.rows) r.pclass r.sex) = some m) :
    (t'.rows[i]?).map Row.age = some (some m) := by
  obtain ⟨r', hr', -, -, -, -, -, -, -, -, hage, -, -, -, -, -, -, -⟩ :=
    cleanData_get i hok hr
  rw [hr']
  have himp : imputedAge (dedup t.rows) r = some m := by
    unfold imputedAge
    rw [hmiss]
    exact hmed
  rw [show Option.map Row.age (some r') = some r'.age from rfl, hage, himp]

/-- Witness for C3: in a table whose (1, male) group has ages missing and 30,
and whose (2, female) group has ages missing and 25, the first record's
missing age becomes 30 — the median of the single known age of its group. -/
theorem claim_C3_witness :
    ((cleanedOf TB).rows[0]?).map Row.age = some (some 30) := by
  have hok : cleanData TB = Except.ok (cleanedOf TB, logOf TB) := by
    with_unfolding_all rfl
  exact claim_C3_age_imputation (r := tbr1) 0 hok (by with_unfolding_all rfl) rfl
    (by with_unfolding_all decide)

/-- C10: a record whose age is missing and whose (class, sex) group has no
known age at all keeps a missing age after cleaning — no global-median or
other fallback is applied. -/
theorem claim_C10_no_fallback {t t' : Table} {lg : Log} (i : Nat) {r : Row}
    (hok : cleanData t = Except.ok (t', lg))
    (hr : (dedup t.rows)[i]? = some r)
    (hmiss : r.age = none)
    (hempty : groupKnownAges (dedup t.rows) r.pclass r.sex = []) :
    (t'.rows[i]?).map Row.age = some none := by
  obtain ⟨r', hr', -, -, -, -, -, -, -, -, hage, -, -, -, -, -, -, -⟩ :=
    cleanData_get i hok hr
  rw [hr']
  have himp : imputedAge (dedup t.rows) r = none := by
    unfold imputedAge
    rw [hmiss, hempty]
    with_unfolding_all rfl
  rw [show Option.map Row.age (some r') = some r'.age from rfl, hage, himp]

/-- Witness for C10: the (1, male) group of the witness table consists of a
single record with missing age; after cleaning its age is still missing. -/
theorem claim_C10_witness :
    ((cleanedOf TC1).rows[0]?).map Row.age = some none := by
  have hok : cleanData TC1 = Except.ok (cleanedOf TC1, logOf TC1) := by
    with_unfolding_all rfl
  exact claim_C10_no_fallback (r := tc1r1) 0 hok (by with_unfolding_all rfl) rfl
    (by with_unfolding_all decide)

/-- Counterexample to C1 as stated: cleaning succeeds on a table whose
(1, male) group consists of one record with missing age, yet the cleaned
record set still contains that record with its age missing — the invariant
does not hold for every loaded raw record set. -/
theorem claim_C1_counterexample :
    cleanOk TC1 = true ∧
    ((cleanedOf TC1).rows[0]?).map Row.age = some none := by
  exact ⟨by with_unfolding_all rfl, by with_unfolding_all decide⟩

/-- C1 (amended): after successful cleaning, provided every deduplicated
record with a missing age belongs to a (class, sex) group holding at least
one non-missing age, every cleaned record has a present age and a present
embarkation port (sex, class, fare and the survival flag are total by the
raw-record schema). -/
theorem claim_C1_no_missing {t t' : Table} {lg : Log}
    (hok : cleanData t = Except.ok (t', lg))
    (hgrp : ∀ r ∈ dedup t.rows, r.age = none →
      groupKnownAges (dedup t.rows) r.pclass r.sex ≠ []) :
    ∀ r' ∈ t'.rows, r'.age.isSome = true ∧ r'.embarked.isSome = true := by
  intro r' hmem
  obtain ⟨i, hi⟩ := List.mem_iff_getElem?.mp hmem
  obtain ⟨r, hr, -, -, -, -, -, -, -, -, hage, hemb, -, -, -, -, -, -⟩ :=
    cleanData_get' i hok hi
  refine ⟨?_, hemb⟩
  rw [hage]
  unfold imputedAge
  cases hra : r.age with
  | some a => rfl
  | none =>
    exact medianQ_isSome (hgrp r (List.getElem?_mem hr) hra)

/-- Witness for the amended C1 on a concrete table satisfying the group
hypothesis. -/
theorem claim_C1_witness :
    ((cleanedOf TB).rows.getD 0 defaultRow).age.isSome = true ∧
    ((cleanedOf TB).rows.getD 0 defaultRow).embarked.isSome = true := by
  have hok : cleanData TB = Except.ok (cleanedOf TB, logOf TB) := by
    with_unfolding_all rfl
  exact claim_C1_no_missing hok (by with_unfolding_all decide)
    ((cleanedOf TB).rows.getD 0 defaultRow) (by with_unfolding_all decide)

/-- Counterexample to C4 as stated: a record with age exactly 0 receives no
age-group label at all (pandas `cut` buckets are left-open), not the label
Child. -/
theorem claim_C4_counterexample :
    cleanOk TC4 = true ∧
    ((cleanedOf TC4).rows[0]?).map Row.age = some (some 0) ∧
    ((cleanedOf TC4).rows[0]?).map Row.ageGroup = some none ∧
    (some (none : Option String) ≠ some (some ("Child"))) := by
  exact ⟨by with_unfolding_all rfl, by with_unfolding_all decide,
    by with_unfolding_all decide, by decide⟩

/-- C4 (amended): every cleaned record's age group is the bucket of its
(imputed) age under the left-open partition Child (0,12], Teen (12,18],
Adult (18,35], Middle-aged (35,60], Senior (60,100]; an age outside (0,100]
— in particular age exactly 0 — or a still-missing age yields no label. -/
theorem claim_C4_age_groups {t t' : Table} {lg : Log} (i : Nat) {r' : Row}
    (hok : cleanData t = Except.ok (t', lg))
    (hr' : t'.rows[i]? = some r') :
    r'.ageGroup = ageBucketSpec r'.age := by
  obtain ⟨r, hr, -, -, -, -, -, -, -, -, hage, -, -, -, -, -, hag, -⟩ :=
    cleanData_get' i hok hr'
  rw [hag, ← hage, ageBucket_eq_spec]

/-- Witness for the amended C4 at the age-0 record: its age group is the
bucket of age 0, which is no label. -/
theorem claim_C4_witness :
    ((cleanedOf TC4).rows.getD 0 defaultRow).ageGroup =
      ageBucketSpec ((cleanedOf TC4).rows.getD 0 defaultRow).age ∧
    ageBucketSpec (some 0) = none := by
  have hok : cleanData TC4 = Except.ok (cleanedOf TC4, logOf TC4) := by
    with_unfolding_all rfl
  exact ⟨claim_C4_age_groups 0 hok (by with_unfolding_all rfl),
    by with_unfolding_all decide⟩

/-- Counterexample to C5 as stated: the code's pattern also requires a space
after the period, so the name Smith, Mr.Owen — which the claim's pattern
(word followed by a period, preceded by a space) does match, extracting Mr —
gets no extracted title at all, and its title stays missing instead of
becoming the token or Rare. -/
theorem claim_C5_counterexample :
    cleanOk TC5a = true ∧
    ((cleanedOf TC5a).rows[0]?).map Row.name = some ("Smith, Mr.Owen") ∧
    ((cleanedOf TC5a).rows[0]?).map Row.title = some none ∧
    specExtractTitle ("Smith, Mr.Owen") = some ("Mr") := by
  exact ⟨by with_unfolding_all rfl, by with_unfolding_all decide,
    by with_unfolding_all decide, by with_unfolding_all decide⟩

/-- C5 (amended): every cleaned record's title is the leftmost match of the
pattern space-word-period-space in its name; a name with no such match keeps
a missing title (which is not collapsed); a matched token whose frequency
across the dataset's extracted titles is below 10 becomes Rare, and one with
frequency at least 10 is kept unchanged. -/
theorem claim_C5_titles {t t' : Table} {lg : Log} (i : Nat) {r' : Row}
    (hok : cleanData t = Except.ok (t', lg))
    (hr' : t'.rows[i]? = some r') :
    (extractTitle r'.name = none → r'.title = none) ∧
    (∀ x, extractTitle r'.name = some x →
      ((((dedup t.rows).map Row.name).filterMap extractTitle).count x < 10 →
          r'.title = some ("Rare")) ∧
      (10 ≤ (((dedup t.rows).map Row.name).filterMap extractTitle).count x →
          r'.title = some x)) := by
  obtain ⟨r, hr, -, -, -, hname, -, -, -, -, -, -, -, -, -, htit, -, -⟩ :=
    cleanData_get' i hok hr'
  constructor
  · intro hnone
    rw [hname] at hnone
    rw [htit]
    unfold titleOf
    rw [hnone]
  · intro x hx
    rw [hname] at hx
    constructor
    · intro hlt
      rw [htit]
      unfold titleOf
      rw [hx]
      show (if List.count x (List.filterMap extractTitle (List.map Row.name (dedup t.rows))) < 10
        then some ("Rare") else some x) = some ("Rare")
      rw [if_pos hlt]
    · intro hge
      rw [htit]
      unfold titleOf
      rw [hx]
      show (if List.count x (List.filterMap extractTitle (List.map Row.name (dedup t.rows))) < 10
        then some ("Rare") else some x) = some x
      rw [if_neg (Nat.not_lt.mpr hge)]

/-- Witness for the amended C5: a title token of dataset frequency 10 is kept
unchanged and one of frequency 2 is collapsed to Rare. -/
theorem claim_C5_witness :
    ((cleanedOf TC5b).rows.getD 0 defaultRow).title = some ("Mr") ∧
    ((cleanedOf TC5b).rows.getD 10 defaultRow).title = some ("Rare") := by
  have hok : cleanData TC5b = Except.ok (cleanedOf TC5b, logOf TC5b) := by
    with_unfolding_all rfl
  constructor
  · exact ((claim_C5_titles 0 hok (by with_unfolding_all rfl)).2 ("Mr")
      (by with_unfolding_all decide)).2 (by with_unfolding_all decide)
  · exact ((claim_C5_titles 10 hok (by with_unfolding_all rfl)).2 ("Mrs")
      (by with_unfolding_all decide)).1 (by with_unfolding_all decide)

set_option maxHeartbeats 2000000

/-- C7: every cleaned record's fare group is the equal-frequency quartile
label of its (unchanged) fare: the four right-closed bins delimited by the
linearly interpolated quartiles of the deduplicated dataset's own fares,
labelled Low, Medium, High, Very High in ascending fare order. -/
theorem claim_C7_fare_quartiles {t t' : Table} {lg : Log} (i : Nat) {r' : Row}
    (hok : cleanData t = Except.ok (t', lg))
    (hr' : t'.rows[i]? = some r') :
    r'.fareGroup = qcutLabel4 (fareEdges ((dedup t.rows).map Row.fare)) r'.fare := by
  obtain ⟨r, hr, -, -, -, -, -, -, -, hfare, -, -, -, -, -, -, -, hfg⟩ :=
    cleanData_get' i hok hr'
  rw [hfg, hfare]

/-- Witness for C7: for the fares 10, 20, 30, 40, the four records fall into
the four distinct groups Low, Medium, High, Very High in ascending order. -/
theorem claim_C7_witness :
    ((cleanedOf TB).rows.getD 0 defaultRow).fareGroup = some ("Low") ∧
    ((cleanedOf TB).rows.getD 1 defaultRow).fareGroup = some ("Medium") ∧
    ((cleanedOf TB).rows.getD 2 defaultRow).fareGroup = some ("High") ∧
    ((cleanedOf TB).rows.getD 3 defaultRow).fareGroup = some ("Very High") := by
  have hok : cleanData TB = Except.ok (cleanedOf TB, logOf TB) := by
    with_unfolding_all rfl
  have h0 : (cleanedOf TB).rows[0]? = some ((cleanedOf TB).rows.getD 0 defaultRow) := by
    with_unfolding_all rfl
  have h1 : (cleanedOf TB).rows[1]? = some ((cleanedOf TB).rows.getD 1 defaultRow) := by
    with_unfolding_all rfl
  have h2 : (cleanedOf TB).rows[2]? = some ((cleanedOf TB).rows.getD 2 defaultRow) := by
    with_unfolding_all rfl
  have h3 : (cleanedOf TB).rows[3]? = some ((cleanedOf TB).rows.getD 3 defaultRow) := by
    with_unfolding_all rfl
  refine ⟨?_, ?_, ?_, ?_⟩
  · rw [claim_C7_fare_quartiles 0 hok h0]
    with_unfolding_all decide
  · rw [claim_C7_fare_quartiles 1 hok h1]
    with_unfolding_all decide
  · rw [claim_C7_fare_quartiles 2 hok h2]
    with_unfolding_all decide
  · rw [claim_C7_fare_quartiles 3 hok h3]
    with_unfolding_all decide

/-- C8: in every cleaned record, family size equals the sibling/spouse count
plus the parent/child count plus one — hence at least 1 — and is-alone is 1
precisely when family size is 1, otherwise 0. -/
theorem claim_C8_family_size {t t' : Table} {lg : Log} (i : Nat) {r' : Row}
    (hok : cleanData t = Except.ok (t', lg))
    (hr' : t'.rows[i]? = some r') :
    r'.familySize = some (r'.sibSp + r'.parch + 1) ∧
    1 ≤ r'.sibSp + r'.parch + 1 ∧
    (r'.isAlone = some 1 ↔ r'.familySize = some 1) ∧
    (r'.isAlone = some 1 ∨ r'.isAlone = some 0) := by
  obtain ⟨r, hr, -, -, -, -, -, hsib, hpar, -, -, -, -, hfam, hial, -, -, -⟩ :=
    cleanData_get' i hok hr'
  have hfs : r'.familySize = some (r'.sibSp + r'.parch + 1) := by
    rw [hfam, hsib, hpar]
  rw [← hsib, ← hpar] at hial
  by_cases hn : r'.sibSp + r'.parch + 1 = 1
  · rw [if_pos hn] at hial
    refine ⟨hfs, Nat.le_add_left 1 _, ?_, Or.inl hial⟩
    constructor
    · intro _
      rw [hfs, hn]
    · intro _
      exact hial
  · rw [if_neg hn] at hial
    refine ⟨hfs, Nat.le_add_left 1 _, ?_, Or.inr hial⟩
    constructor
    · intro h1
      rw [hial] at h1
      exact absurd (Option.some.inj h1) (by decide)
    · intro h1
      rw [hfs] at h1
      exact absurd (Option.some.inj h1) hn

/-- Witness for C8 at a record with no siblings, spouses, parents or
children: its family size is 1 and it counts as alone. -/
theorem claim_C8_witness :
    ((cleanedOf TB).rows.getD 0 defaultRow).familySize =
      some (((cleanedOf TB).rows.getD 0 defaultRow).sibSp +
        ((cleanedOf TB).rows.getD 0 defaultRow).parch + 1) ∧
    (((cleanedOf TB).rows.getD 0 defaultRow).isAlone = some 1 ↔
      ((cleanedOf TB).rows.getD 0 defaultRow).familySize = some 1) := by
  have hok : cleanData TB = Except.ok (cleanedOf TB, logOf TB) := by
    with_unfolding_all rfl
  have h0 : (cleanedOf TB).rows[0]? = some ((cleanedOf TB).rows.getD 0 defaultRow) := by
    with_unfolding_all rfl
  have h := claim_C8_family_size 0 hok h0
  exact ⟨h.1, h.2.2.1⟩

/-- C6: when the raw table has a cabin column, the cleaner drops it if and
only if the column's missing fraction (over the deduplicated rows) strictly
exceeds 70 percent; when retained, every record keeps its cabin value
unchanged. -/
theorem claim_C6_cabin_threshold {t t' : Table} {lg : Log}
    (hok : cleanData t = Except.ok (t', lg)) (hcab : t.hasCabin = true) :
    (t'.hasCabin = false ↔ cabinMissingPct (dedup t.rows) > 70) ∧
    (t'.hasCabin = true → ∀ (i : Nat) (r : Row), (dedup t.rows)[i]? = some r →
      (t'.rows[i]?).map Row.cabin = some r.cabin) := by
  obtain ⟨rows3, embFilled, hc2, rows4, dropped, hEmb, hCab, hFare, hHC, hLg⟩ :=
    cleanData_inv hok
  obtain ⟨hpcteq, -⟩ := cabinPct_rows3 (dedup t.rows) hEmb
  obtain ⟨-, h2⟩ := cabinStep_inv hCab
  obtain ⟨hlen0, hcases⟩ := h2 hcab
  constructor
  · constructor
    · intro hfalse
      rcases hcases with ⟨hpct, -, -, -⟩ | ⟨hnpct, hc2t, -, -⟩
      · rw [← hpcteq]
        exact hpct
      · rw [hHC, hc2t] at hfalse
        cases hfalse
    · intro hpct
      rcases hcases with ⟨-, hc2f, -, -⟩ | ⟨hnpct, -, -, -⟩
      · rw [hHC, hc2f]
      · exfalso
        apply hnpct
        rw [hpcteq]
        exact hpct
  · intro hct i r hr
    obtain ⟨r', hr', -, -, -, -, -, -, -, -, -, -, hcabF, -, -, -, -, -⟩ :=
      cleanData_get i hok hr
    rw [hr', show Option.map Row.cabin (some r') = some r'.cabin from rfl, hcabF hct]

/-- Witness for C6: a 100-record table with 71 missing cabin values loses its
cabin column, while one with 69 missing values keeps it with every cabin
value unchanged. -/
theorem claim_C6_witness :
    (cleanedOf T71).hasCabin = false ∧
    cabinMissingPct (dedup T71.rows) = 71 ∧
    (cleanedOf T69).hasCabin = true ∧
    cabinMissingPct (dedup T69.rows) = 69 ∧
    ((cleanedOf T69).rows[99]?).map Row.cabin = some (some ("C")) := by
  have hok71 : cleanData T71 = Except.ok (cleanedOf T71, logOf T71) := by
    with_unfolding_all rfl
  have hok69 : cleanData T69 = Except.ok (cleanedOf T69, logOf T69) := by
    with_unfolding_all rfl
  have h71 := claim_C6_cabin_threshold hok71 rfl
  have h69 := claim_C6_cabin_threshold hok69 rfl
  have hp71 : cabinMissingPct (dedup T71.rows) = 71 := by with_unfolding_all decide
  have hp69 : cabinMissingPct (dedup T69.rows) = 69 := by with_unfolding_all decide
  have hret : (cleanedOf T69).hasCabin = true := by
    cases hb : (cleanedOf T69).hasCabin
    · exfalso
      have hgt := h69.1.mp hb
      rw [hp69] at hgt
      norm_num at hgt
    · rfl
  have hlast : (dedup T69.rows)[99]? = some (c6Row 69 99) := by
    with_unfolding_all rfl
  refine ⟨h71.1.mpr (by rw [hp71]; norm_num), hp71, hret, hp69, ?_⟩
  have h99 := h69.2 hret 99 (c6Row 69 99) hlast
  rw [h99]
  with_unfolding_all decide

/-- Counterexample to C9 as stated: the first cleaning pass imputes the
missing age of a record otherwise identical to another one, making the two
cleaned records equal; the second pass then removes one duplicate and
returns a smaller output, although its input was an already-cleaned record
set with no missing values. -/
theorem claim_C9_counterexample :
    cleanOk TC9 = true ∧
    noMissingTable (cleanedOf TC9) = true ∧
    (logOf (cleanedOf TC9)).duplicatesRemoved = 1 ∧
    cleanedOf (cleanedOf TC9) ≠ cleanedOf TC9 := by
  exact ⟨by with_unfolding_all rfl, by with_unfolding_all decide,
    by with_unfolding_all decide, by with_unfolding_all decide⟩

/-- C9 (amended): cleaning is idempotent on its own output as long as that
output has pairwise-distinct rows and no remaining missing value: the second
pass removes no duplicate, fills no age or port, drops no column, and
returns its input unchanged. -/
theorem claim_C9_idempotent {t t' : Table} {lg : Log}
    (hok : cleanData t = Except.ok (t', lg))
    (hnodup : t'.rows.Nodup)
    (hmiss : noMissingTable t' = true) :
    cleanData t' = Except.ok (t',
      { duplicatesRemoved := 0, ageFilled := 0, embarkedFilled := 0,
        cabinDropped := false }) := by
  have hfacts : ∀ r ∈ t'.rows, r.age.isSome = true ∧ r.embarked.isSome = true ∧
      (t'.hasCabin = true → r.cabin.isSome = true) := by
    intro r hr
    have h := List.all_eq_true.mp hmiss r hr
    unfold rowComplete at h
    simp only [Bool.and_eq_true] at h
    refine ⟨h.1.1.1.1.1.1.1, h.1.1.1.1.1.1.2, ?_⟩
    intro hcab
    have hc := h.1.1.1.1.1.2
    rw [hcab] at hc
    simpa using hc
  obtain ⟨rows3, embFilled, hc2, rows4, dropped, hEmb, hCab, hFare, hHC, hLg⟩ :=
    cleanData_inv hok
  obtain ⟨hedges, hrows'⟩ := addFareGroup_inv hFare
  have hcols := cleanData_cols hok
  -- per-row feature equations, restated over the cleaned table itself
  have hperrow : ∀ r' ∈ t'.rows,
      r'.familySize = some (r'.sibSp + r'.parch + 1) ∧
      r'.isAlone = some (if r'.sibSp + r'.parch + 1 = 1 then 1 else 0) ∧
      r'.title = titleOf (t'.rows.map Row.name) r'.name ∧
      r'.ageGroup = ageBucket r'.age ∧
      r'.fareGroup = qcutLabel4 (fareEdges (t'.rows.map Row.fare)) r'.fare := by
    intro r' hmem
    obtain ⟨i, hi⟩ := List.mem_iff_getElem?.mp hmem
    obtain ⟨r, hr, -, -, -, hname, -, hsib, hpar, hfare, hage, -, -, hfam, hial,
      htit, hag, hfg⟩ := cleanData_get' i hok hi
    refine ⟨?_, ?_, ?_, ?_, ?_⟩
    · rw [hfam, hsib, hpar]
    · rw [hial, hsib, hpar]
    · rw [htit, hname, hcols.1]
    · rw [hag, hage]
    · rw [hfg, hfare, hcols.2.1]
  have hfares7 : (addAgeGroup (addTitle (addFamily rows4))).map Row.fare =
      (dedup t.rows).map Row.fare := by
    unfold addAgeGroup addTitle addFamily
    rw [map_fare_setAgeGroup, map_fare_setTitle, map_fare_setFamily,
      cabinStep_map_fare hCab, fillEmbarked_map_fare hEmb, map_fare_fillAge]
  have hedges2 : edgesOk (fareEdges (t'.rows.map Row.fare)) = true := by
    rw [hcols.2.1, ← hfares7]
    exact hedges
  have hlen0 : t'.hasCabin = true → t'.rows.length ≠ 0 := by
    intro hct
    rw [hHC] at hct
    cases hhc : t.hasCabin with
    | false =>
      have hf := ((cabinStep_inv hCab).1 hhc).1
      rw [hf] at hct
      cases hct
    | true =>
      obtain ⟨hlen3, hcases⟩ := (cabinStep_inv hCab).2 hhc
      have hlen4 : rows4.length = rows3.length := by
        rcases hcases with ⟨-, -, -, hre⟩ | ⟨-, -, -, hre⟩
        · rw [hre, List.length_map]
        · rw [hre]
      have hlent : t'.rows.length = rows4.length := by
        rw [hrows']
        unfold addAgeGroup addTitle addFamily
        simp only [List.length_map]
      rw [hlent, hlen4]
      exact hlen3
  -- the second pass, stage by stage
  have hfillAge : fillAge t'.rows = t'.rows := by
    unfold fillAge
    apply map_eq_self_of
    intro r hr
    exact fillAgeRow_of_isSome ((hfacts r hr).1)
  have hnullemb : t'.rows.countP (fun r => r.embarked.isNone) = 0 := by
    apply List.countP_eq_zero.mpr
    intro r hr
    have h := (hfacts r hr).2.1
    cases hre : r.embarked
    · rw [hre] at h
      simp at h
    · simp [hre]
  have hfe : fillEmbarked t'.rows = Except.ok (t'.rows, 0) := by
    unfold fillEmbarked
    rw [if_pos hnullemb]
  have hnullage : t'.rows.countP (fun r => r.age.isNone) = 0 := by
    apply List.countP_eq_zero.mpr
    intro r hr
    have h := (hfacts r hr).1
    cases hra : r.age
    · rw [hra] at h
      simp at h
    · simp [hra]
  have hcs : cabinStep t'.hasCabin t'.rows = Except.ok (t'.hasCabin, t'.rows, false) := by
    cases hhc : t'.hasCabin with
    | false => rfl
    | true =>
      have hnullcab : t'.rows.countP (fun r => r.cabin.isNone) = 0 := by
        apply List.countP_eq_zero.mpr
        intro r hr
        have h := (hfacts r hr).2.2 hhc
        cases hre : r.cabin
        · rw [hre] at h
          simp at h
        · simp [hre]
      have hpctneg : ¬(((t'.rows.countP (fun r => r.cabin.isNone) : ℚ) /
          (t'.rows.length : ℚ)) * 100 > 70) := by
        rw [hnullcab]
        norm_num
      unfold cabinStep
      rw [if_pos rfl, if_neg (hlen0 hhc), if_neg hpctneg]
  have hfamid : addFamily t'.rows = t'.rows := by
    unfold addFamily
    apply map_eq_self_of
    intro r hr
    exact setFamily_eq_self (hperrow r hr).1 (hperrow r hr).2.1
  have htitid : addTitle t'.rows = t'.rows := by
    unfold addTitle
    apply map_eq_self_of
    intro r hr
    exact setTitle_eq_self (hperrow r hr).2.2.1
  have haggid : addAgeGroup t'.rows = t'.rows := by
    unfold addAgeGroup
    apply map_eq_self_of
    intro r hr
    exact setAgeGroup_eq_self (hperrow r hr).2.2.2.1
  have hfgid : addFareGroup t'.rows = Except.ok t'.rows := by
    unfold addFareGroup
    rw [if_pos hedges2]
    congr 1
    apply map_eq_self_of
    intro r hr
    exact setFareGroup_eq_self (hperrow r hr).2.2.2.2
  unfold cleanData
  simp only [dedup_eq_self hnodup, hfillAge, hfe, hcs, hfamid, htitid, haggid, hfgid,
    Nat.sub_self, hnullage]

/-- Witness for the amended C9: on the cleaned form of a fully populated
4-record table, the second cleaning pass returns its input unchanged with an
all-zero action log. -/
theorem claim_C9_witness :
    cleanData (cleanedOf TC9w) = Except.ok (cleanedOf TC9w,
      { duplicatesRemoved := 0, ageFilled := 0, embarkedFilled := 0,
        cabinDropped := false }) := by
  have hok : cleanData TC9w = Except.ok (cleanedOf TC9w, logOf TC9w) := by
    with_unfolding_all rfl
  exact claim_C9_idempotent hok (by with_unfolding_all decide)
    (by with_unfolding_all decide)
